import Mathlib

/-!
Shallow embedding of the article content-extraction heuristic of the
tweet-to-PDF converter (src/app/page.tsx, function `scrapeArticle` and the
`POST` handler).  String primitives are modelled on lists of characters with
JavaScript semantics (lengths are counted in code points; all inputs of
interest are ASCII, where JS UTF-16 lengths coincide).
-/

set_option maxRecDepth 100000
set_option maxHeartbeats 1000000

namespace TweetToPdf

/-- Character-list prefix test: `leadChars p s` is true when `p` is an initial
segment of `s` (JS `String.prototype.startsWith` on the char level). -/
def leadChars : List Char → List Char → Bool
  | [], _ => true
  | _ :: _, [] => false
  | c :: cs, d :: ds => c == d && leadChars cs ds

/-- Substring occurrence test (JS `String.prototype.includes`). -/
def subOccurs (sub : List Char) : List Char → Bool
  | [] => sub.isEmpty
  | d :: ds => leadChars sub (d :: ds) || subOccurs sub ds

/-- JS `s.includes(sub)`. -/
def strIncludes (s sub : String) : Bool := subOccurs sub.toList s.toList

/-- JS `s.startsWith(pat)`. -/
def strStartsWith (s pat : String) : Bool := leadChars pat.toList s.toList

/-- ASCII lower-casing of a string, character by character. -/
def strToLower (s : String) : String := String.mk (s.toList.map Char.toLower)

/-- Case-insensitive anchored prefix test, modelling a `/^pat/i` regex. -/
def ciStartsWith (s pat : String) : Bool := strStartsWith (strToLower s) (strToLower pat)

/-- Case-insensitive whole-string test, modelling a `/^pat$/i` regex. -/
def ciEquals (s pat : String) : Bool := strToLower s == strToLower pat

/-- Whitespace characters trimmed by JS `trim` / matched by `\s` (ASCII part). -/
def isJsSpace (c : Char) : Bool :=
  c == ' ' || c == '\t' || c == '\n' || c == '\r' || c == '\x0b' || c == '\x0c'

/-- JS `s.trim()`. -/
def strTrim (s : String) : String :=
  String.mk (((s.toList.dropWhile isJsSpace).reverse.dropWhile isJsSpace).reverse)

/-- JS `s.slice(n)` for a non-negative `n` (code points). -/
def strDrop (s : String) (n : Nat) : String := String.mk (s.toList.drop n)

/-- JS `s.length` (code points; identical to UTF-16 units on ASCII input). -/
def strLen (s : String) : Nat := s.toList.length

/-- JS regex `\w` character class. -/
def isWordChar (c : Char) : Bool := c.isAlphanum || c == '_'

/-- Month abbreviations of the date-stamp skip pattern. -/
def monthAbbrevs : List String :=
  ["Jan", "Feb", "Mar", "Apr", "May", "Jun", "Jul", "Aug", "Sep", "Oct", "Nov", "Dec"]

/-- Models the skip pattern `/^(Jan|...|Dec)\s+\d+$/` (case-sensitive). -/
def monthDayMatch (s : String) : Bool :=
  monthAbbrevs.any fun m =>
    strStartsWith s m &&
      (let rest := (strDrop s 3).toList
       let ws := rest.takeWhile isJsSpace
       let ds := rest.dropWhile isJsSpace
       !ws.isEmpty && !ds.isEmpty && ds.all Char.isDigit)

/-- Models the skip pattern `/^@\w+$/` (case-sensitive). -/
def atHandleMatch (s : String) : Bool :=
  match s.toList with
  | '@' :: rest => !rest.isEmpty && rest.all isWordChar
  | _ => false

/-- The literal mojibake middle-dot text of the skip pattern `/^Â·$/`
(U+00C2 followed by U+00B7). -/
def middleDotText : String := String.mk [Char.ofNat 0xC2, Char.ofNat 0xB7]

/-- The `skipPatterns` array of UI-chrome regexes, folded into one test
(`skipPatterns.some(p => p.test(text))`). -/
def skipPatternMatch (text : String) : Bool :=
  ciStartsWith text "To view keyboard" ||
  ciStartsWith text "View keyboard" ||
  ciEquals text "Log in" ||
  ciEquals text "Sign up" ||
  atHandleMatch text ||
  monthDayMatch text ||
  text == middleDotText ||
  ciStartsWith text "More from" ||
  ciEquals text "Follow" ||
  ciEquals text "Repost" ||
  ciEquals text "Quote" ||
  ciEquals text "Like" ||
  ciEquals text "Bookmark" ||
  ciEquals text "Share" ||
  ciEquals text "Copy link"

/-- Tag kinds of the elements returned by the classifier's
`querySelectorAll('h1, h2, h3, h4, p, div, span, img')` (images are a separate
`Element` constructor). -/
inductive Tag
  | h1
  | h2
  | h3
  | h4
  | p
  | div
  | span
deriving DecidableEq, Repr

/-- One element of the flattened, ordered DOM snapshot the classifier walks.
A text-bearing node carries its tag, raw `textContent`, computed font weight
and size (pixels), and whether it has block-level descendants
(`el.querySelector('p, div, h1, h2, h3, h4')`). -/
inductive Element
  | image (src : String)
  | node (tag : Tag) (textContent : String) (fontWeight : Nat) (fontSize : Nat)
      (hasBlockChildren : Bool)
deriving DecidableEq, Repr

/-- One item of the classifier's `content` array: `{type: 'text'|'image', value}`. -/
inductive ContentItem
  | text (value : String)
  | image (value : String)
deriving DecidableEq, Repr

/-- Metadata extracted before the body pass: `authorName`, `authorHandle`, `title`. -/
structure AuthorCtx where
  authorName : String
  authorHandle : String
  title : String
deriving DecidableEq, Repr

/-- The mutable loop state of the body-classification pass. -/
structure ClassifyState where
  content : List ContentItem
  seenTexts : List String
  seenImages : List String
  foundFirstContent : Bool
  reachedFooter : Bool
  headerImageCount : Nat
  skippedAfterTitle : Nat
deriving DecidableEq, Repr

/-- Initial loop state: empty sets and counters, flags false. -/
def initialState : ClassifyState :=
  { content := []
    seenTexts := []
    seenImages := []
    foundFirstContent := false
    reachedFooter := false
    headerImageCount := 0
    skippedAfterTitle := 0 }

/-- Image acceptance condition of the classifier: non-empty source, no
avatar/emoji/icon/svg marker, not a duplicate, and a known media host. -/
def imgQualifies (seenImages : List String) (src : String) : Bool :=
  src != "" &&
  !(strIncludes src "profile_images") &&
  !(strIncludes src "emoji") &&
  !(strIncludes src "icon") &&
  !(strIncludes src "svg") &&
  !(seenImages.contains src) &&
  (strIncludes src "pbs.twimg.com" || strIncludes src "ton.twimg.com")

/-- The `IMG` branch of the classification loop: a qualifying source is always
recorded in `seenImages`; before first content only the first header image is
pushed, afterwards every qualifying image is pushed. -/
def classifyImageStep (s : ClassifyState) (src : String) : ClassifyState :=
  if imgQualifies s.seenImages src then
    let s1 := { s with seenImages := src :: s.seenImages }
    if !s1.foundFirstContent then
      let s2 := { s1 with headerImageCount := s1.headerImageCount + 1 }
      if s2.headerImageCount == 1 then
        { s2 with content := s2.content ++ [ContentItem.image src] }
      else s2
    else { s1 with content := s1.content ++ [ContentItem.image src] }
  else s

/-- Emission tail of the text branch: leaf-node guard, `seenTexts` recording,
and pushing the item with a `## ` marker when heading-like. -/
def emitText (s : ClassifyState) (isHeading : Bool) (tag : Tag)
    (hasBlockChildren : Bool) (text : String) : ClassifyState :=
  if hasBlockChildren && tag == Tag.div then s
  else
    let s1 := { s with seenTexts := text :: s.seenTexts }
    if isHeading then
      { s1 with content := s1.content ++ [ContentItem.text ("## " ++ text)] }
    else
      { s1 with content := s1.content ++ [ContentItem.text text] }

/-- The text-node branch of the classification loop, in source order: length
floor, duplicate check, skip patterns, author/title equality, footer check,
heading-likeness, lead-in suppression, then emission. -/
def classifyTextStep (ctx : AuthorCtx) (s : ClassifyState) (tag : Tag)
    (textContent : String) (fontWeight : Nat) (fontSize : Nat)
    (hasBlockChildren : Bool) : ClassifyState :=
  let text := strTrim textContent
  if text == "" || strLen text < 3 then s
  else if s.seenTexts.contains text then s
  else if skipPatternMatch text then s
  else if text == ctx.authorName || text == ctx.authorHandle || text == ctx.title then s
  else if strStartsWith text "More from" || (s.foundFirstContent && text == ctx.authorName) then
    { s with reachedFooter := true }
  else
    let isHeadingTag := tag == Tag.h1 || tag == Tag.h2 || tag == Tag.h3 || tag == Tag.h4
    let isStyledAsHeading := fontWeight ≥ 600 && fontSize ≥ 20 && strLen text < 150
    let isHeading := isHeadingTag || isStyledAsHeading
    if !s.foundFirstContent then
      if strLen text > 40 then
        emitText { s with foundFirstContent := true, skippedAfterTitle := 0 }
          isHeading tag hasBlockChildren text
      else if isHeadingTag || isStyledAsHeading then
        emitText { s with foundFirstContent := true, skippedAfterTitle := 0 }
          isHeading tag hasBlockChildren text
      else
        let s1 := { s with skippedAfterTitle := s.skippedAfterTitle + 1 }
        if s1.skippedAfterTitle ≤ 6 then s1
        else emitText s1 isHeading tag hasBlockChildren text
    else emitText s isHeading tag hasBlockChildren text

/-- One iteration of the classification loop; a state that has reached the
footer ignores every further element (`if (reachedFooter) break`). -/
def classifyStep (ctx : AuthorCtx) (s : ClassifyState) (e : Element) : ClassifyState :=
  if s.reachedFooter then s
  else
    match e with
    | Element.image src => classifyImageStep s src
    | Element.node tag textContent fontWeight fontSize hasBlockChildren =>
        classifyTextStep ctx s tag textContent fontWeight fontSize hasBlockChildren

/-- The classification loop over the ordered element snapshot. -/
def classifyLoop (ctx : AuthorCtx) (s : ClassifyState) (es : List Element) : ClassifyState :=
  es.foldl (classifyStep ctx) s

/-- The classification pass from the initial state. -/
def classifyRun (ctx : AuthorCtx) (es : List Element) : ClassifyState :=
  classifyLoop ctx initialState es

/-- Unconditional trailing drop after the pass:
`if (content.length > 1) content.splice(-1)`. -/
def trailingDrop (l : List ContentItem) : List ContentItem :=
  if 1 < l.length then l.dropLast else l

/-- Raw text of a stored item: the `## ` heading marker is stripped before the
noise filter inspects it. -/
def rawOf (t : String) : String := if strStartsWith t "## " then strDrop t 3 else t

/-- Whether a raw text matches one of the fixed call-to-action phrases. -/
def ctaMatch (raw : String) : Bool :=
  ciEquals raw "Subscribe" ||
  ciStartsWith raw "Click to Subscribe" ||
  ciStartsWith raw "Click to Follow"

/-- Whether a content item is removed by the call-to-action rule. -/
def ctaItem : ContentItem → Bool
  | ContentItem.image _ => false
  | ContentItem.text t => ctaMatch (rawOf t)

/-- One step of the noise-filter callback: returns the keep decision and the
updated `foundRealParagraph` flag. -/
def filterStep (foundRealParagraph : Bool) (item : ContentItem) : Bool × Bool :=
  match item with
  | ContentItem.image _ => (true, foundRealParagraph)
  | ContentItem.text t =>
      let rawText := rawOf t
      if ciEquals rawText "Subscribe" then (false, foundRealParagraph)
      else if ciStartsWith rawText "Click to Subscribe" then (false, foundRealParagraph)
      else if ciStartsWith rawText "Click to Follow" then (false, foundRealParagraph)
      else if !foundRealParagraph then
        if strLen rawText ≥ 50 then (true, true)
        else if strLen rawText < 10 then (false, foundRealParagraph)
        else (true, foundRealParagraph)
      else (true, foundRealParagraph)

/-- The noise filter's in-order traversal threading the flag through
`Array.prototype.filter`'s left-to-right callback invocations. -/
def noiseFilterGo (flag : Bool) : List ContentItem → List ContentItem
  | [] => []
  | item :: rest =>
      let r := filterStep flag item
      if r.1 then item :: noiseFilterGo r.2 rest else noiseFilterGo r.2 rest

/-- The noise filter: flag starts false. -/
def noiseFilter (l : List ContentItem) : List ContentItem := noiseFilterGo false l

/-- A hyperlink element scanned by the author extraction
(`querySelectorAll('a[href*="/"]')`): absolute href and `textContent`. -/
structure PageLink where
  href : String
  text : String
deriving DecidableEq, Repr

/-- Whether some suffix of the href matches `x\.com\/\w+$`. -/
def profileSuffixMatch : List Char → Bool
  | [] => false
  | d :: ds =>
      (leadChars "x.com/".toList (d :: ds) &&
        (let w := (d :: ds).drop 6
         !w.isEmpty && w.all isWordChar)) ||
      profileSuffixMatch ds

/-- The author-scan link test:
`href.match(/x\.com\/\w+$/) && !href.includes('/i/')`. -/
def linkMatches (href : String) : Bool :=
  profileSuffixMatch href.toList && !(strIncludes href "/i/")

/-- The author extraction loop: each matching `@`-text overwrites the handle,
the first matching other non-empty text under 50 characters sets the name,
and the scan breaks once both are non-empty. -/
def extractAuthorGo : String → String → List PageLink → String × String
  | authorName, authorHandle, [] => (authorName, authorHandle)
  | authorName, authorHandle, l :: rest =>
      if linkMatches l.href then
        let text := strTrim l.text
        let handle1 := if strStartsWith text "@" then text else authorHandle
        let name1 :=
          if !(strStartsWith text "@") && text != "" && authorName == "" &&
              strLen text < 50 then text
          else authorName
        if name1 != "" && handle1 != "" then (name1, handle1)
        else extractAuthorGo name1 handle1 rest
      else extractAuthorGo authorName authorHandle rest

/-- Author extraction from the ordered link list; both fields start empty. -/
def extractAuthor (links : List PageLink) : String × String :=
  extractAuthorGo "" "" links

/-- The extracted article record returned by the scrape
(avatar and date are external DOM reads, not modelled further). -/
structure ArticleData where
  title : String
  authorName : String
  authorHandle : String
  authorAvatar : Option String
  content : List ContentItem
  date : String
deriving DecidableEq, Repr

/-- The classifier-plus-filter pipeline of `scrapeArticle`'s page evaluation:
author extraction, body classification, trailing drop, noise filter.  The
title is the result of the (external) title-selector probing. -/
def scrapeArticleModel (links : List PageLink) (title : String)
    (es : List Element) : ArticleData :=
  let a := extractAuthor links
  let st := classifyRun { authorName := a.1, authorHandle := a.2, title := title } es
  { title := title
    authorName := a.1
    authorHandle := a.2
    authorAvatar := none
    content := noiseFilter (trailingDrop st.content)
    date := "" }

/-- Outcome of the `POST` handler's article branch after scraping. -/
inductive ScrapeResponse
  | jsonError (status : Nat) (msg : String)
  | pdfRender
deriving DecidableEq, Repr

/-- The terminal error message of the extraction-empty check. -/
def extractFailMessage : String :=
  "Could not extract article content. The article may be private or deleted."

/-- The caller's extraction-failure check:
`if (!articleData.title && articleData.content.length === 0)` responds with a
status-400 JSON error, otherwise rendering proceeds. -/
def convertArticleRespond (d : ArticleData) : ScrapeResponse :=
  if d.title == "" && d.content.length == 0 then
    ScrapeResponse.jsonError 400 extractFailMessage
  else ScrapeResponse.pdfRender

/-- The image URLs occurring in a content sequence, in order. -/
def imageUrls (l : List ContentItem) : List String :=
  l.filterMap fun item =>
    match item with
    | ContentItem.image u => some u
    | ContentItem.text _ => none

/-- Invariant of the classification loop: every emitted image URL has been
recorded in `seenImages`, and no URL is emitted twice. -/
def ImgInv (s : ClassifyState) : Prop :=
  (∀ u ∈ imageUrls s.content, u ∈ s.seenImages) ∧ (imageUrls s.content).Nodup

/-- Lower-casing both lists preserves a character-level prefix. -/
lemma leadChars_map_toLower (p s : List Char) (h : leadChars p s = true) :
    leadChars (p.map Char.toLower) (s.map Char.toLower) = true := by
  induction p generalizing s with
  | nil => simp [leadChars]
  | cons c cs ih =>
    cases s with
    | nil => simp [leadChars] at h
    | cons d ds =>
      simp only [leadChars, Bool.and_eq_true, beq_iff_eq, List.map_cons] at h ⊢
      exact ⟨by rw [h.1], ih ds h.2⟩

/-- A case-sensitive anchored prefix match implies the case-insensitive one. -/
lemma ciStartsWith_of_strStartsWith (s pat : String)
    (h : strStartsWith s pat = true) : ciStartsWith s pat = true := by
  have : (strToLower s).toList = s.toList.map Char.toLower := rfl
  unfold ciStartsWith strStartsWith at *
  rw [show (strToLower s).toList = s.toList.map Char.toLower from rfl,
    show (strToLower pat).toList = pat.toList.map Char.toLower from rfl]
  exact leadChars_map_toLower _ _ h

/-- A text passing the footer's case-sensitive `More from` test necessarily
matches the `/^More from/i` entry of the skip-pattern list. -/
lemma skipPatternMatch_of_moreFrom (text : String)
    (h : strStartsWith text "More from" = true) : skipPatternMatch text = true := by
  have hci := ciStartsWith_of_strStartsWith text "More from" h
  simp [skipPatternMatch, hci]

/-- Text emission never touches the footer flag. -/
lemma emitText_reachedFooter (s : ClassifyState) (ih : Bool) (tag : Tag)
    (hbc : Bool) (text : String) :
    (emitText s ih tag hbc text).reachedFooter = s.reachedFooter := by
  simp only [emitText]
  split_ifs <;> rfl

/-- The text branch never sets the footer flag: the `More from` case is
pre-empted by the skip-pattern check, and the author-name case by the
author-equality check. -/
lemma classifyTextStep_reachedFooter (ctx : AuthorCtx) (s : ClassifyState)
    (tag : Tag) (tc : String) (fw fs : Nat) (hbc : Bool) :
    (classifyTextStep ctx s tag tc fw fs hbc).reachedFooter = s.reachedFooter := by
  simp only [classifyTextStep]
  split_ifs with h1 h2 h3 h4 h5 <;>
    first
      | rfl
      | (exact emitText_reachedFooter _ _ _ _ _)
      | skip
  · -- footer branch: contradiction with the earlier skip checks
    exfalso
    simp only [Bool.or_eq_true, Bool.and_eq_true, beq_iff_eq] at h4 h5
    rcases h5 with hmf | hauth
    · exact h3 (skipPatternMatch_of_moreFrom _ hmf)
    · exact h4 (Or.inl (Or.inl hauth.2))

/-- The image branch never touches the footer flag. -/
lemma classifyImageStep_reachedFooter (s : ClassifyState) (src : String) :
    (classifyImageStep s src).reachedFooter = s.reachedFooter := by
  simp only [classifyImageStep]
  split_ifs <;> rfl

/-- No single classification step ever sets the footer flag. -/
lemma classifyStep_reachedFooter (ctx : AuthorCtx) (s : ClassifyState)
    (e : Element) : (classifyStep ctx s e).reachedFooter = s.reachedFooter := by
  simp only [classifyStep]
  split_ifs with h
  · rfl
  · cases e with
    | image src => exact classifyImageStep_reachedFooter s src
    | node tag tc fw fs hbc => exact classifyTextStep_reachedFooter ctx s tag tc fw fs hbc

/-- The whole pass preserves the footer flag. -/
lemma classifyLoop_reachedFooter (ctx : AuthorCtx) (es : List Element) :
    ∀ s : ClassifyState, (classifyLoop ctx s es).reachedFooter = s.reachedFooter := by
  induction es with
  | nil => intro s; rfl
  | cons e rest ih =>
    intro s
    simp only [classifyLoop, List.foldl_cons] at ih ⊢
    rw [ih, classifyStep_reachedFooter]

/-- C1: the claimed footer halt never happens.  The classification pass never
sets `reachedFooter` on any input: a text starting with `More from` is
consumed by the `/^More from/i` skip pattern, and a text equal to the author
name is consumed by the author-equality skip, both before the halt check
runs.  Concretely, with author name `Real Author`, a long paragraph followed
by `More from Real Author`, by `Real Author`, and by a second long paragraph
yields both long paragraphs: the elements after the would-be footer markers
still contribute to the output, contradicting the claimed immediate halt. -/
theorem c1_footer_halt_dead :
    (∀ (ctx : AuthorCtx) (es : List Element),
      (classifyRun ctx es).reachedFooter = false)
    ∧ (classifyRun ⟨"Real Author", "@real", "The Title"⟩
        [Element.node Tag.p
          "This opening paragraph is long enough to count as content." 400 16 false,
         Element.node Tag.p "More from Real Author" 400 16 false,
         Element.node Tag.p "Real Author" 400 16 false,
         Element.node Tag.p
          "A closing paragraph that would have been cut by the halt." 400 16 false]).content
      = [ContentItem.text "This opening paragraph is long enough to count as content.",
         ContentItem.text "A closing paragraph that would have been cut by the halt."] := by
  constructor
  · intro ctx es
    rw [classifyRun, classifyLoop_reachedFooter]
    rfl
  · decide

/-- C2 counterexample: on paragraph texts of lengths 5, 60, 8 the noise
filter does not return only the 60-length item. -/
theorem c2_length_gate_cex :
    noiseFilter
        [ContentItem.text "abcde",
         ContentItem.text (String.mk (List.replicate 60 'a')),
         ContentItem.text "abcdefgh"]
      ≠ [ContentItem.text (String.mk (List.replicate 60 'a'))] := by
  decide

/-- C2 amended: on paragraph texts of lengths 5, 60, 8 the noise filter
drops only the 5-length item; the 8-length item survives because the
`foundRealParagraph` flag has already been flipped by the 60-length item
processed before it. -/
theorem c2_length_gate_amended :
    noiseFilter
        [ContentItem.text "abcde",
         ContentItem.text (String.mk (List.replicate 60 'a')),
         ContentItem.text "abcdefgh"]
      = [ContentItem.text (String.mk (List.replicate 60 'a')),
         ContentItem.text "abcdefgh"] := by
  decide

/-- C4 counterexample: a lone non-heading text node of exactly 40 characters
is treated as short by the classifier - it is silently discarded by the
lead-in suppression and does not mark the start of real content, although
the claim calls a node of at least 40 characters substantial. -/
theorem c4_leadin_cex :
    strLen (strTrim (String.mk (List.replicate 40 'x'))) = 40
    ∧ (classifyRun ⟨"", "", ""⟩
        [Element.node Tag.p (String.mk (List.replicate 40 'x')) 400 16 false]).content = []
    ∧ (classifyRun ⟨"", "", ""⟩
        [Element.node Tag.p (String.mk (List.replicate 40 'x')) 400 16 false]).foundFirstContent
      = false := by
  decide

/-- C4 amended: with substantial meaning strictly more than 40 characters
(and short meaning at most 40), six short non-heading nodes followed by a
41-character node give exactly the long node, marked as starting real
content; seven short nodes followed by the long node give the seventh short
node kept followed by the long node. -/
theorem c4_leadin_amended :
    ((classifyRun ⟨"", "", ""⟩
        [Element.node Tag.p "s one" 400 16 false,
         Element.node Tag.p "s two" 400 16 false,
         Element.node Tag.p "s three" 400 16 false,
         Element.node Tag.p "s four" 400 16 false,
         Element.node Tag.p "s five" 400 16 false,
         Element.node Tag.p "s six" 400 16 false,
         Element.node Tag.p (String.mk (List.replicate 41 'b')) 400 16 false]).content
      = [ContentItem.text (String.mk (List.replicate 41 'b'))]
    ∧ (classifyRun ⟨"", "", ""⟩
        [Element.node Tag.p "s one" 400 16 false,
         Element.node Tag.p "s two" 400 16 false,
         Element.node Tag.p "s three" 400 16 false,
         Element.node Tag.p "s four" 400 16 false,
         Element.node Tag.p "s five" 400 16 false,
         Element.node Tag.p "s six" 400 16 false,
         Element.node Tag.p (String.mk (List.replicate 41 'b')) 400 16 false]).foundFirstContent
      = true)
    ∧ (classifyRun ⟨"", "", ""⟩
        [Element.node Tag.p "s one" 400 16 false,
         Element.node Tag.p "s two" 400 16 false,
         Element.node Tag.p "s three" 400 16 false,
         Element.node Tag.p "s four" 400 16 false,
         Element.node Tag.p "s five" 400 16 false,
         Element.node Tag.p "s six" 400 16 false,
         Element.node Tag.p "s seven" 400 16 false,
         Element.node Tag.p (String.mk (List.replicate 41 'b')) 400 16 false]).content
      = [ContentItem.text "s seven",
         ContentItem.text (String.mk (List.replicate 41 'b'))] := by
  decide

/-- C5 counterexample: a container div of 50 characters flips the
first-content flag while being skipped by the leaf-node guard, so no text is
ever accepted, yet both following qualifying images survive - contradicting
the claim that among images before any accepted text only the first is kept. -/
theorem c5_precontent_image_cex :
    (classifyRun ⟨"", "", ""⟩
        [Element.node Tag.div (String.mk (List.replicate 50 'd')) 400 16 true,
         Element.image "https://pbs.twimg.com/a.jpg",
         Element.image "https://pbs.twimg.com/b.jpg"]).content
      = [ContentItem.image "https://pbs.twimg.com/a.jpg",
         ContentItem.image "https://pbs.twimg.com/b.jpg"] := by
  decide

/-- With the flag already true, a filter step keeps an item exactly when it
is not a call-to-action phrase, and the flag stays true. -/
lemma filterStep_true_eq (item : ContentItem) :
    filterStep true item = (!ctaItem item, true) := by
  cases item with
  | image u => rfl
  | text t =>
    simp only [filterStep, ctaItem, ctaMatch]
    by_cases h1 : ciEquals (rawOf t) "Subscribe" = true <;>
      by_cases h2 : ciStartsWith (rawOf t) "Click to Subscribe" = true <;>
        by_cases h3 : ciStartsWith (rawOf t) "Click to Follow" = true <;>
          simp [h1, h2, h3]

/-- Once the flag is true, the remaining traversal is exactly the
call-to-action filter: no length-based filtering is applied any more. -/
lemma noiseFilterGo_true_filter (l : List ContentItem) :
    noiseFilterGo true l = l.filter fun item => !ctaItem item := by
  induction l with
  | nil => rfl
  | cons item rest ih =>
    simp only [noiseFilterGo, filterStep_true_eq, List.filter_cons]
    cases h : ctaItem item <;> simp [h, ih]

/-- C3: the noise filter's flag semantics.  Starting from a false flag, a
non-CTA paragraph of raw length at least 50 is kept and flips the flag, one
of raw length below 10 is dropped with the flag left false, and one in
between is kept without flipping; a CTA paragraph is dropped without
flipping.  Once the flag is true, a step keeps an item exactly when it is
not a CTA phrase (never by length), the flag stays true, and the remaining
traversal is precisely the CTA filter. -/
theorem c3_flag_semantics (t : String) (l : List ContentItem) :
    (filterStep false (ContentItem.text t)
      = if ctaMatch (rawOf t) then (false, false)
        else if strLen (rawOf t) ≥ 50 then (true, true)
        else if strLen (rawOf t) < 10 then (false, false)
        else (true, false))
    ∧ filterStep true (ContentItem.text t) = (!ctaMatch (rawOf t), true)
    ∧ noiseFilterGo true l = l.filter fun item => !ctaItem item := by
  refine ⟨?_, ?_, noiseFilterGo_true_filter l⟩
  · simp only [filterStep, ctaMatch]
    by_cases h1 : ciEquals (rawOf t) "Subscribe" = true <;>
      by_cases h2 : ciStartsWith (rawOf t) "Click to Subscribe" = true <;>
        by_cases h3 : ciStartsWith (rawOf t) "Click to Follow" = true <;>
          simp [h1, h2, h3]
  · have := filterStep_true_eq (ContentItem.text t)
    simpa [ctaItem] using this

/-- A CTA paragraph is dropped by a filter step whatever the flag is. -/
lemma filterStep_drops_cta (flag : Bool) (t : String)
    (h : ctaMatch (rawOf t) = true) :
    (filterStep flag (ContentItem.text t)).1 = false := by
  simp only [filterStep]
  simp only [ctaMatch, Bool.or_eq_true] at h
  rcases h with (h1 | h2) | h3
  · simp [h1]
  · by_cases h1 : ciEquals (rawOf t) "Subscribe" = true <;> simp [h1, h2]
  · by_cases h1 : ciEquals (rawOf t) "Subscribe" = true <;>
      by_cases h2 : ciStartsWith (rawOf t) "Click to Subscribe" = true <;>
        simp [h1, h2, h3]

/-- A CTA paragraph never survives the noise filter, from any flag state. -/
lemma cta_never_kept (t : String) (h : ctaMatch (rawOf t) = true) :
    ∀ (flag : Bool) (l : List ContentItem),
      ContentItem.text t ∉ noiseFilterGo flag l := by
  intro flag l
  induction l generalizing flag with
  | nil => simp [noiseFilterGo]
  | cons item rest ih =>
    simp only [noiseFilterGo]
    by_cases he : item = ContentItem.text t
    · subst he
      rw [filterStep_drops_cta flag t h]
      exact ih _
    · cases hk : (filterStep flag item).1 <;> simp [hk]
      · exact ih _
      · exact ⟨fun hc => he hc.symm, ih _⟩

/-- C8: a paragraph whose text is exactly `Subscribe` is removed by the
noise filter at every position and in every flag state; as the sole item it
leaves the output empty. -/
theorem c8_cta_removal (l : List ContentItem) :
    ContentItem.text "Subscribe" ∉ noiseFilter l
    ∧ noiseFilter [ContentItem.text "Subscribe"] = [] := by
  refine ⟨?_, by decide⟩
  unfold noiseFilter
  exact cta_never_kept "Subscribe" (by decide) false l

/-- C7: the trailing drop removes exactly the last collected item when more
than one was collected, and leaves shorter sequences unchanged. -/
theorem c7_trailing_drop (l : List ContentItem) :
    (1 < l.length →
      trailingDrop l ++ l.drop (l.length - 1) = l
      ∧ (trailingDrop l).length = l.length - 1)
    ∧ (l.length ≤ 1 → trailingDrop l = l) := by
  constructor
  · intro h
    rw [trailingDrop, if_pos h]
    refine ⟨?_, List.length_dropLast l⟩
    rw [List.dropLast_eq_take]
    exact List.take_append_drop _ l
  · intro h
    rw [trailingDrop, if_neg (by omega)]

/-- Witness for the trailing drop: a two-item result loses exactly its last
item, a one-item result is unchanged. -/
theorem c7_trailing_drop_witness :
    (trailingDrop [ContentItem.text "alpha", ContentItem.text "omega"]
        ++ ([ContentItem.text "alpha", ContentItem.text "omega"].drop
            ([ContentItem.text "alpha", ContentItem.text "omega"].length - 1))
      = [ContentItem.text "alpha", ContentItem.text "omega"]
    ∧ (trailingDrop [ContentItem.text "alpha", ContentItem.text "omega"]).length
      = [ContentItem.text "alpha", ContentItem.text "omega"].length - 1)
    ∧ trailingDrop [ContentItem.text "solo"] = [ContentItem.text "solo"] :=
  ⟨(c7_trailing_drop [ContentItem.text "alpha", ContentItem.text "omega"]).1 (by decide),
   (c7_trailing_drop [ContentItem.text "solo"]).2 (by decide)⟩

/-- The image branch characterised: a qualifying source is appended exactly
when the first-content flag is already set or no header image has been
counted yet; otherwise (and for non-qualifying sources) the content is
unchanged. -/
lemma classifyImageStep_content (s : ClassifyState) (src : String) :
    (classifyImageStep s src).content =
      if imgQualifies s.seenImages src then
        if s.foundFirstContent || s.headerImageCount == 0 then
          s.content ++ [ContentItem.image src]
        else s.content
      else s.content := by
  simp only [classifyImageStep]
  by_cases hq : imgQualifies s.seenImages src = true
  · simp only [hq, if_true]
    by_cases hf : s.foundFirstContent = true
    · simp [hf]
    · simp only [Bool.not_eq_true] at hf
      simp only [hf, Bool.not_false, if_true, Bool.false_or]
      by_cases hc : s.headerImageCount = 0
      · simp [hc]
      · have h1 : (s.headerImageCount + 1 == 1) = false := by
          simp only [beq_eq_false_iff_ne, ne_eq]
          omega
        have h0 : (s.headerImageCount == 0) = false := by
          simp only [beq_eq_false_iff_ne, ne_eq]
          exact hc
        simp [h1, h0]
  · simp [hq]

/-- C5 amended: the pre-content image cap is keyed to the classifier's
first-content flag rather than to accepted text.  A step on a qualifying
image appends it exactly when the flag is set or it is the first counted
header image; concretely, three qualifying images with no text leave only
the first, while a substantial accepted paragraph before the second image
lets images one, two and three all survive. -/
theorem c5_precontent_image_amended (ctx : AuthorCtx) (s : ClassifyState)
    (src : String) :
    ((classifyStep ctx s (Element.image src)).content =
      if s.reachedFooter then s.content
      else if imgQualifies s.seenImages src then
        if s.foundFirstContent || s.headerImageCount == 0 then
          s.content ++ [ContentItem.image src]
        else s.content
      else s.content)
    ∧ (classifyRun ⟨"", "", ""⟩
        [Element.image "https://pbs.twimg.com/a.jpg",
         Element.image "https://pbs.twimg.com/b.jpg",
         Element.image "https://pbs.twimg.com/c.jpg"]).content
      = [ContentItem.image "https://pbs.twimg.com/a.jpg"]
    ∧ (classifyRun ⟨"", "", ""⟩
        [Element.image "https://pbs.twimg.com/a.jpg",
         Element.node Tag.p (String.mk (List.replicate 41 'c')) 400 16 false,
         Element.image "https://pbs.twimg.com/b.jpg",
         Element.image "https://pbs.twimg.com/c.jpg"]).content
      = [ContentItem.image "https://pbs.twimg.com/a.jpg",
         ContentItem.text (String.mk (List.replicate 41 'c')),
         ContentItem.image "https://pbs.twimg.com/b.jpg",
         ContentItem.image "https://pbs.twimg.com/c.jpg"] := by
  refine ⟨?_, by decide, by decide⟩
  simp only [classifyStep]
  by_cases hr : s.reachedFooter = true
  · simp [hr]
  · simp only [Bool.not_eq_true] at hr
    simp only [hr, Bool.false_eq_true, if_false]
    exact classifyImageStep_content s src

/-- C6 counterexample: with two matching at-links before the first matching
name link, the extracted handle is the text of the second at-link, not of
the first. -/
theorem c6_author_order_cex :
    (extractAuthor
        [⟨"https://x.com/a", "@a"⟩, ⟨"https://x.com/b", "@b"⟩,
         ⟨"https://x.com/bobby", "Bob"⟩]).2 ≠ "@a"
    ∧ extractAuthor
        [⟨"https://x.com/a", "@a"⟩, ⟨"https://x.com/b", "@b"⟩,
         ⟨"https://x.com/bobby", "Bob"⟩]
      = ("Bob", "@b") := by
  decide

/-- C6 amended: each matching at-link overwrites the handle, so when two
matching at-links precede the first matching name link the handle ends as
the second at-text; the display name is still the first matching non-at
non-empty text under 50 characters, and the scan stops once both are set. -/
theorem c6_author_order_amended (t1 t2 n : String)
    (h1 : strStartsWith (strTrim t1) "@" = true)
    (h2 : strStartsWith (strTrim t2) "@" = true)
    (h3 : strStartsWith (strTrim n) "@" = false)
    (h4 : strTrim n ≠ "")
    (h5 : strLen (strTrim n) < 50) :
    extractAuthor
        [⟨"https://x.com/one", t1⟩, ⟨"https://x.com/two", t2⟩,
         ⟨"https://x.com/three", n⟩]
      = (strTrim n, strTrim t2) := by
  have m1 : linkMatches "https://x.com/one" = true := by decide
  have m2 : linkMatches "https://x.com/two" = true := by decide
  have m3 : linkMatches "https://x.com/three" = true := by decide
  have ht2 : (strTrim t2 != "") = true := by
    simp only [bne_iff_ne, ne_eq]
    intro he
    rw [he] at h2
    exact absurd h2 (by decide)
  have hn4 : (strTrim n != "") = true := by
    simpa [bne_iff_ne] using h4
  simp only [extractAuthor, extractAuthorGo, m1, m2, m3, if_true, h1, h2, h3,
    Bool.not_true, Bool.not_false, Bool.false_and, Bool.true_and, if_false,
    bne_self_eq_false, Bool.false_and, hn4, ht2, h5, decide_True, Bool.and_true,
    Bool.and_self, if_true]
  simp [hn4, ht2]

/-- Witness for the amended author-extraction order at concrete link texts. -/
theorem c6_author_order_amended_witness :
    extractAuthor
        [⟨"https://x.com/one", "@x"⟩, ⟨"https://x.com/two", "@y"⟩,
         ⟨"https://x.com/three", "Zed"⟩]
      = (strTrim "Zed", strTrim "@y") :=
  c6_author_order_amended "@x" "@y" "Zed" (by decide) (by decide) (by decide)
    (by decide) (by decide)

/-- C9: the caller treats extraction as failed exactly when the returned
title and content are both empty, answering with the single status-400
terminal error, and renders otherwise; the classifier-plus-filter pipeline
is a total function, so the check is exhaustive on its output. -/
theorem c9_failure_semantics (d : ArticleData) (links : List PageLink)
    (title : String) (es : List Element) :
    (convertArticleRespond d = ScrapeResponse.jsonError 400 extractFailMessage
      ↔ (d.title = "" ∧ d.content = []))
    ∧ (convertArticleRespond d = ScrapeResponse.jsonError 400 extractFailMessage
      ∨ convertArticleRespond d = ScrapeResponse.pdfRender)
    ∧ (convertArticleRespond (scrapeArticleModel links title es)
        = ScrapeResponse.pdfRender
      ∨ ((scrapeArticleModel links title es).title = ""
        ∧ (scrapeArticleModel links title es).content = [])) := by
  refine ⟨?_, ?_, ?_⟩
  · unfold convertArticleRespond
    split_ifs with h
    · simp only [Bool.and_eq_true, beq_iff_eq] at h
      constructor
      · intro _
        exact ⟨h.1, List.length_eq_zero.mp h.2⟩
      · intro _
        rfl
    · constructor
      · intro hc
        exact absurd hc (by simp)
      · rintro ⟨ht, hc⟩
        exact absurd (by simp [ht, hc]) h
  · unfold convertArticleRespond
    split_ifs <;> simp
  · unfold convertArticleRespond
    split_ifs with h
    · right
      simp only [Bool.and_eq_true, beq_iff_eq] at h
      exact ⟨h.1, List.length_eq_zero.mp h.2⟩
    · left
      rfl

/-- Appending a text item does not change the emitted image URLs. -/
lemma imageUrls_append_text (c : List ContentItem) (t : String) :
    imageUrls (c ++ [ContentItem.text t]) = imageUrls c := by
  simp [imageUrls]

/-- Appending an image item appends its URL. -/
lemma imageUrls_append_image (c : List ContentItem) (u : String) :
    imageUrls (c ++ [ContentItem.image u]) = imageUrls c ++ [u] := by
  simp [imageUrls]

/-- A URL occurs among the image URLs exactly when the image item occurs. -/
lemma mem_imageUrls (c : List ContentItem) (u : String) :
    u ∈ imageUrls c ↔ ContentItem.image u ∈ c := by
  simp only [imageUrls, List.mem_filterMap]
  constructor
  · rintro ⟨a, ha, hfa⟩
    cases a with
    | text t => simp at hfa
    | image v =>
      simp only [Option.some.injEq] at hfa
      exact hfa ▸ ha
  · intro h
    exact ⟨ContentItem.image u, h, rfl⟩

/-- A qualifying image source is not yet in the seen set. -/
lemma imgQualifies_not_mem (seen : List String) (src : String)
    (h : imgQualifies seen src = true) : src ∉ seen := by
  simp only [imgQualifies, Bool.and_eq_true] at h
  intro hmem
  have hcon := h.1.2
  have hc : seen.contains src = true := List.elem_iff.mpr hmem
  rw [hc] at hcon
  exact absurd hcon (by decide)

/-- The emission tail only ever appends a text item, and never touches the
seen-image set. -/
lemma emitText_shape (s : ClassifyState) (ih : Bool) (tag : Tag) (hbc : Bool)
    (text : String) :
    ((emitText s ih tag hbc text).content = s.content
      ∨ ∃ t, (emitText s ih tag hbc text).content = s.content ++ [ContentItem.text t])
    ∧ (emitText s ih tag hbc text).seenImages = s.seenImages := by
  unfold emitText
  split_ifs
  · exact ⟨Or.inl rfl, rfl⟩
  · exact ⟨Or.inr ⟨"## " ++ text, rfl⟩, rfl⟩
  · exact ⟨Or.inr ⟨text, rfl⟩, rfl⟩

/-- The text branch only ever appends a text item, and never touches the
seen-image set. -/
lemma classifyTextStep_shape (ctx : AuthorCtx) (s : ClassifyState) (tag : Tag)
    (tc : String) (fw fs : Nat) (hbc : Bool) :
    ((classifyTextStep ctx s tag tc fw fs hbc).content = s.content
      ∨ ∃ t, (classifyTextStep ctx s tag tc fw fs hbc).content
          = s.content ++ [ContentItem.text t])
    ∧ (classifyTextStep ctx s tag tc fw fs hbc).seenImages = s.seenImages := by
  suffices h : ∀ r : ClassifyState, classifyTextStep ctx s tag tc fw fs hbc = r →
      ((r.content = s.content ∨ ∃ t, r.content = s.content ++ [ContentItem.text t])
        ∧ r.seenImages = s.seenImages) by
    exact h _ rfl
  intro r hr
  simp only [classifyTextStep] at hr
  split_ifs at hr <;> subst hr <;>
    first
      | exact ⟨Or.inl rfl, rfl⟩
      | exact emitText_shape _ _ _ _ _

/-- A URL already recorded as seen but not emitted stays unemitted across an
image step, and stays seen. -/
lemma classifyImageStep_keeps (s : ClassifyState) (src u : String)
    (h1 : u ∈ s.seenImages) (h2 : ContentItem.image u ∉ s.content) :
    u ∈ (classifyImageStep s src).seenImages
    ∧ ContentItem.image u ∉ (classifyImageStep s src).content := by
  simp only [classifyImageStep]
  by_cases hq : imgQualifies s.seenImages src = true
  · have hne : src ≠ u := by
      intro he
      exact imgQualifies_not_mem _ _ hq (he ▸ h1)
    have hpush : ContentItem.image u ∉ s.content ++ [ContentItem.image src] := by
      intro hm
      rcases List.mem_append.mp hm with hm | hm
      · exact h2 hm
      · have h3 : u = src := by
          have h4 := List.mem_singleton.mp hm
          injection h4
        exact hne h3.symm
    simp only [hq, if_true]
    split_ifs with hf hc
    · exact ⟨List.mem_cons_of_mem _ h1, hpush⟩
    · exact ⟨List.mem_cons_of_mem _ h1, h2⟩
    · exact ⟨List.mem_cons_of_mem _ h1, hpush⟩
  · simp only [hq, if_false]
    exact ⟨h1, h2⟩

/-- A URL seen but not emitted stays that way across any classification step. -/
lemma classifyStep_keeps (ctx : AuthorCtx) (s : ClassifyState) (e : Element)
    (u : String) (h1 : u ∈ s.seenImages) (h2 : ContentItem.image u ∉ s.content) :
    u ∈ (classifyStep ctx s e).seenImages
    ∧ ContentItem.image u ∉ (classifyStep ctx s e).content := by
  simp only [classifyStep]
  split_ifs with hr
  · exact ⟨h1, h2⟩
  · cases e with
    | image src => exact classifyImageStep_keeps s src u h1 h2
    | node tag tc fw fs hbc =>
      obtain ⟨hc, hs⟩ := classifyTextStep_shape ctx s tag tc fw fs hbc
      rw [hs]
      refine ⟨h1, ?_⟩
      rcases hc with hc | ⟨t, hc⟩
      · rw [hc]
        exact h2
      · rw [hc]
        simp only [List.mem_append, List.mem_singleton]
        rintro (hm | hm)
        · exact h2 hm
        · cases hm

/-- An image step preserves the image invariant. -/
lemma classifyImageStep_inv (s : ClassifyState) (src : String) (h : ImgInv s) :
    ImgInv (classifyImageStep s src) := by
  obtain ⟨hmem, hnd⟩ := h
  simp only [classifyImageStep]
  by_cases hq : imgQualifies s.seenImages src = true
  · have hs : src ∉ s.seenImages := imgQualifies_not_mem _ _ hq
    have hnotin : src ∉ imageUrls s.content := fun hin => hs (hmem _ hin)
    simp only [hq, if_true]
    have hkeep : (∀ u ∈ imageUrls (s.content ++ [ContentItem.image src]),
        u ∈ src :: s.seenImages)
        ∧ (imageUrls (s.content ++ [ContentItem.image src])).Nodup := by
      rw [imageUrls_append_image]
      constructor
      · intro u hu
        rcases List.mem_append.mp hu with hu | hu
        · exact List.mem_cons_of_mem _ (hmem u hu)
        · rw [List.mem_singleton.mp hu]
          exact List.mem_cons_self _ _
      · simp [List.nodup_append, hnd, hnotin]
    split_ifs with hf hc
    · exact hkeep
    · exact ⟨fun u hu => List.mem_cons_of_mem _ (hmem u hu), hnd⟩
    · exact hkeep
  · simp only [hq, if_false]
    exact ⟨hmem, hnd⟩

/-- Any classification step preserves the image invariant. -/
lemma classifyStep_inv (ctx : AuthorCtx) (s : ClassifyState) (e : Element)
    (h : ImgInv s) : ImgInv (classifyStep ctx s e) := by
  simp only [classifyStep]
  split_ifs with hr
  · exact h
  · cases e with
    | image src => exact classifyImageStep_inv s src h
    | node tag tc fw fs hbc =>
      obtain ⟨hc, hs⟩ := classifyTextStep_shape ctx s tag tc fw fs hbc
      obtain ⟨hmem, hnd⟩ := h
      constructor
      · intro u hu
        rw [hs]
        rcases hc with hcc | ⟨t, hcc⟩
        · rw [hcc] at hu
          exact hmem u hu
        · rw [hcc, imageUrls_append_text] at hu
          exact hmem u hu
      · rcases hc with hcc | ⟨t, hcc⟩
        · rw [hcc]
          exact hnd
        · rw [hcc, imageUrls_append_text]
          exact hnd

/-- A URL seen but not emitted stays that way across the rest of the pass. -/
lemma classifyLoop_keeps (ctx : AuthorCtx) (es : List Element) :
    ∀ (s : ClassifyState) (u : String), u ∈ s.seenImages →
      ContentItem.image u ∉ s.content →
      u ∈ (classifyLoop ctx s es).seenImages
      ∧ ContentItem.image u ∉ (classifyLoop ctx s es).content := by
  induction es with
  | nil => exact fun s u h1 h2 => ⟨h1, h2⟩
  | cons e rest ih =>
    intro s u h1 h2
    obtain ⟨h1s, h2s⟩ := classifyStep_keeps ctx s e u h1 h2
    simpa only [classifyLoop, List.foldl_cons] using
      ih (classifyStep ctx s e) u h1s h2s

/-- The image invariant is preserved by the whole pass. -/
lemma ImgInv_loop (ctx : AuthorCtx) (es : List Element) :
    ∀ s : ClassifyState, ImgInv s → ImgInv (classifyLoop ctx s es) := by
  induction es with
  | nil => exact fun s h => h
  | cons e rest ih =>
    intro s h
    simpa only [classifyLoop, List.foldl_cons] using
      ih (classifyStep ctx s e) (classifyStep_inv ctx s e h)

/-- The initial loop state satisfies the image invariant. -/
lemma ImgInv_initial : ImgInv initialState := by
  constructor
  · intro u hu
    simp [initialState, imageUrls] at hu
  · simp [initialState, imageUrls]

/-- C10: dropped pre-content images still poison the dedup set.  A URL that
has entered `seenImages` without its item being emitted is never emitted by
any later occurrence, however the pass continues; and the emitted image URLs
of a full pass are always pairwise distinct. -/
theorem c10_dedup_poison (ctx : AuthorCtx) (es1 es2 : List Element) (u : String)
    (h1 : u ∈ (classifyRun ctx es1).seenImages)
    (h2 : ContentItem.image u ∉ (classifyRun ctx es1).content) :
    ContentItem.image u ∉ (classifyRun ctx (es1 ++ es2)).content
    ∧ (imageUrls (classifyRun ctx (es1 ++ es2)).content).Nodup := by
  have hsplit : classifyRun ctx (es1 ++ es2)
      = classifyLoop ctx (classifyRun ctx es1) es2 := by
    simp only [classifyRun, classifyLoop, List.foldl_append]
  constructor
  · rw [hsplit]
    exact (classifyLoop_keeps ctx es2 (classifyRun ctx es1) u h1 h2).2
  · exact (ImgInv_loop ctx (es1 ++ es2) initialState ImgInv_initial).2

/-- Witness for the dedup poisoning: image `b.jpg` is seen-but-dropped as a
second pre-content image, and is not re-emitted when it reappears after text
content has started. -/
theorem c10_dedup_poison_witness :
    ContentItem.image "https://pbs.twimg.com/b.jpg" ∉
        (classifyRun ⟨"", "", ""⟩
          ([Element.image "https://pbs.twimg.com/a.jpg",
            Element.image "https://pbs.twimg.com/b.jpg"] ++
           [Element.node Tag.p (String.mk (List.replicate 41 'c')) 400 16 false,
            Element.image "https://pbs.twimg.com/b.jpg"])).content
    ∧ (imageUrls (classifyRun ⟨"", "", ""⟩
          ([Element.image "https://pbs.twimg.com/a.jpg",
            Element.image "https://pbs.twimg.com/b.jpg"] ++
           [Element.node Tag.p (String.mk (List.replicate 41 'c')) 400 16 false,
            Element.image "https://pbs.twimg.com/b.jpg"])).content).Nodup :=
  c10_dedup_poison ⟨"", "", ""⟩
    [Element.image "https://pbs.twimg.com/a.jpg",
     Element.image "https://pbs.twimg.com/b.jpg"]
    [Element.node Tag.p (String.mk (List.replicate 41 'c')) 400 16 false,
     Element.image "https://pbs.twimg.com/b.jpg"]
    "https://pbs.twimg.com/b.jpg" (by decide) (by decide)

end TweetToPdf
